import Mathlib

/-!
Verification of the Magic Storybook session controller, pagination engine,
library navigation, generation client, and input dispatcher against their
natural-language specification.  Every definition below is a shallow
embedding of a function of `storybook_ui.py`, `storybook.py` or `config.py`;
external inputs of those functions (font metrics, viewport geometry, the
background listen thread, the Ollama backend) become explicit parameters.
-/

set_option maxHeartbeats 1000000

namespace Storybook

/-! ## Python string primitives

Kernel-computable embeddings of the Python string operations the program
uses: `split`, `split(sep, 1)`, `replace`, `startswith`.  Each scanning
function carries a fuel argument bounding its recursion; every step strictly
shrinks the remaining input, so fuel equal to the input length is never
exhausted. -/

/-- Python `l.startswith(pat)` on character lists (first argument is the
pattern). -/
def starts_with : List Char → List Char → Bool
  | [], _ => true
  | _ :: _, [] => false
  | p :: ps, c :: cs => p = c && starts_with ps cs

/-- Python `s.split(sep)` for a non-empty separator: left-to-right,
non-overlapping, keeping empty pieces. -/
def py_split_go (sep : List Char) : Nat → List Char → List Char → List (List Char)
  | _, acc, [] => [acc.reverse]
  | 0, acc, l => [acc.reverse ++ l]
  | fuel + 1, acc, c :: rest =>
    if starts_with sep (c :: rest) then
      acc.reverse :: py_split_go sep fuel [] (List.drop sep.length (c :: rest))
    else
      py_split_go sep fuel (c :: acc) rest

/-- Python `s.split(sep)`. -/
def py_split (s sep : String) : List String :=
  (py_split_go sep.data s.data.length [] s.data).map String.mk

/-- Python `s.split(sep, 1)`: the text before the first separator occurrence
and, when the separator occurs, the remainder after it. -/
def py_split_once_go (sep : List Char) :
    Nat → List Char → List Char → List Char × Option (List Char)
  | _, acc, [] => (acc.reverse, none)
  | 0, acc, l => (acc.reverse ++ l, none)
  | fuel + 1, acc, c :: rest =>
    if starts_with sep (c :: rest) then
      (acc.reverse, some (List.drop sep.length (c :: rest)))
    else
      py_split_once_go sep fuel (c :: acc) rest

/-- Python `s.split(sep, 1)`. -/
def py_split_once (s sep : String) : String × Option String :=
  let r := py_split_once_go sep.data s.data.length [] s.data
  (String.mk r.1, r.2.map String.mk)

/-- Python `s.replace(pat, repl)` for a non-empty pattern: replaces every
occurrence, left to right, non-overlapping. -/
def py_replace_go (pat repl : List Char) : Nat → List Char → List Char
  | _, [] => []
  | 0, l => l
  | fuel + 1, c :: rest =>
    if starts_with pat (c :: rest) then
      repl ++ py_replace_go pat repl fuel (List.drop pat.length (c :: rest))
    else
      c :: py_replace_go pat repl fuel rest

/-- Python `s.replace(pat, repl)`. -/
def py_replace (s pat repl : String) : String :=
  String.mk (py_replace_go pat.data repl.data s.data.length s.data)

/-! ## Text wrapping (`Storybook._wrap_text`, storybook_ui.py lines 403-421) -/

/-- Python `text.split(" ")`: split on every single space, keeping empty
pieces (so `"".split(" ") = [""]`). -/
def split_words (text : String) : List String := py_split text " "

/-- Python `" ".join(ws)`. -/
def join_words : List String → String
  | [] => ""
  | [w] => w
  | w :: ws => w ++ " " ++ join_words ws

/-- The greedy line fill of `Storybook._wrap_text`, kept at the level of the
word groups that make up each line.  `size` is `font.size(·)[0]`, the
measured pixel width of a candidate line, and `width` the available width.
A word is appended to the current line while the measured current line plus
the word stays within `width`; otherwise the current line (if non-empty) is
emitted and the word starts a new line.  The trailing line is emitted if
non-empty. -/
def wrap_groups (size : String → Nat) (width : Nat) :
    List String → List String → List (List String)
  | current, [] => if current = [] then [] else [current]
  | current, w :: ws =>
    if size (join_words (current ++ [w])) ≤ width then
      wrap_groups size width (current ++ [w]) ws
    else if current = [] then
      wrap_groups size width [w] ws
    else
      current :: wrap_groups size width [w] ws

/-- `Storybook._wrap_text(text, font, width)`: the wrapped lines, each line
being the space-join of its word group. -/
def wrap_text (text : String) (size : String → Nat) (width : Nat) : List String :=
  (wrap_groups size width [] (split_words text)).map join_words

theorem join_words_singleton (w : String) : join_words [w] = w := rfl

theorem wrap_groups_flatten (size : String → Nat) (width : Nat) :
    ∀ (ws current : List String),
      (wrap_groups size width current ws).flatten = current ++ ws := by
  intro ws
  induction ws with
  | nil =>
    intro current
    by_cases h : current = [] <;> simp [wrap_groups, h]
  | cons w ws ih =>
    intro current
    rw [wrap_groups]
    split
    · rw [ih]; simp
    · split
      · next _ hcur => rw [ih]; simp [hcur]
      · simp only [List.flatten_cons, ih]; simp

theorem wrap_groups_alone (size : String → Nat) (width : Nat) (words : List String)
    (Hmono : ∀ l, List.Sublist l words → ∀ w ∈ l, size w ≤ size (join_words l)) :
    ∀ (ws current : List String), List.Sublist (current ++ ws) words →
      (∀ v ∈ current, width < size v → current = [v]) →
      ∀ g ∈ wrap_groups size width current ws, ∀ v ∈ g, width < size v → g = [v] := by
  intro ws
  induction ws with
  | nil =>
    intro current _ hinv g hg v hv hwide
    rw [wrap_groups] at hg
    split at hg
    · simp at hg
    · simp only [List.mem_singleton] at hg
      subst hg
      exact hinv v hv hwide
  | cons w ws ih =>
    intro current hsub hinv g hg v hv hwide
    rw [wrap_groups] at hg
    split at hg
    · next hfit =>
      refine ih (current ++ [w]) ?_ ?_ g hg v hv hwide
      · simpa [List.append_assoc] using hsub
      · intro u hu hu_wide
        exfalso
        have hsub' : List.Sublist (current ++ [w]) words := by
          refine List.Sublist.trans ?_ hsub
          exact (List.append_sublist_append_left current).mpr
            (List.cons_sublist_cons.mpr (List.nil_sublist ws))
        have := Hmono (current ++ [w]) hsub' u hu
        omega
    · next hfit =>
      have hws : List.Sublist (w :: ws) (current ++ w :: ws) :=
        List.sublist_append_right current (w :: ws)
      split at hg
      · refine ih [w] (List.Sublist.trans hws hsub) ?_ g hg v hv hwide
        intro u hu _
        simp only [List.mem_singleton] at hu
        simp [hu]
      · simp only [List.mem_cons] at hg
        rcases hg with hg | hg
        · subst hg
          exact hinv v hv hwide
        · refine ih [w] (List.Sublist.trans hws hsub) ?_ g hg v hv hwide
          intro u hu _
          simp only [List.mem_singleton] at hu
          simp [hu]

/-- A measure function under which the two-word line "a W" measures narrower
than the single word "W": a counterexample to quantifying the overflow
property over every measure function. -/
def adversarial_size : String → Nat := fun s => if s = "W" then 10 else 0

/-- C6 counterexample: under `adversarial_size` and viewport width 5, the word
"W" measures 10 > 5, yet greedy wrapping of `["a", "W"]` puts "W" on the same
line as "a" — it is not placed alone on its own line, refuting the claim as
stated for every measure function. -/
theorem wrap_overflow_counterexample :
    5 < adversarial_size "W" ∧
    wrap_groups adversarial_size 5 [] ["a", "W"] = [["a", "W"]] ∧
    [("W" : String)] ∉ wrap_groups adversarial_size 5 [] ["a", "W"] := by
  decide

/-- C6 (amended): for every word list and measure function under which a word
never measures wider than a line containing it (as with real font metrics),
greedy wrapping (1) keeps every word, in order — nothing is dropped or
truncated; (2) places any word measuring wider than the viewport width alone
on its own line; and (3) for every measure function, a text consisting of a
single word wider than the viewport yields exactly one line containing
exactly that word. -/
theorem wrap_single_word_own_line (size : String → Nat) (width : Nat)
    (words : List String)
    (Hmono : ∀ l, List.Sublist l words → ∀ w ∈ l, size w ≤ size (join_words l)) :
    (wrap_groups size width [] words).flatten = words ∧
    (∀ g ∈ wrap_groups size width [] words, ∀ v ∈ g, width < size v → g = [v]) ∧
    (∀ text : String, split_words text = [text] → width < size text →
      wrap_text text size width = [text]) := by
  refine ⟨wrap_groups_flatten size width words [], ?_, ?_⟩
  · exact wrap_groups_alone size width words Hmono words [] (by simp) (by simp)
  · intro text h hwide
    have hn : ¬ size (join_words ([] ++ [text])) ≤ width := by
      simpa [join_words] using Nat.not_le.mpr hwide
    simp [wrap_text, h, wrap_groups, hn, join_words_singleton]

theorem wrap_single_word_own_line_witness :
    (wrap_groups String.length 3 [] ["ab", "abcde", "x"]).flatten
      = ["ab", "abcde", "x"] := by
  have hall : ∀ l ∈ (["ab", "abcde", "x"] : List String).sublists,
      ∀ w ∈ l, String.length w ≤ String.length (join_words l) := by decide
  exact (wrap_single_word_own_line String.length 3 ["ab", "abcde", "x"]
    (fun l hl => hall l (List.mem_sublists.mpr hl))).1

/-! ## Markdown stripping (`Storybook.strip_markdown`, storybook_ui.py 467-472)

`strip_markdown` applies three `re.sub` passes and a final `str.strip()`:
`re.sub(r'#{1,6}\s*', '', text)`, then `re.sub(r'\*\*(.*?)\*\*', r'\1', text)`,
then `re.sub(r'\*(.*?)\*', r'\1', text)`.  Each pass is embedded as a
left-to-right scan with Python regex semantics: leftmost non-overlapping
matches, greedy `#{1,6}` and `\s*`, non-greedy `.*?` where `.` does not match
a newline. -/

/-- Python `\s` on ASCII text (also the set stripped by `str.strip()`). -/
def is_py_space (c : Char) : Bool :=
  c = ' ' || c = '\t' || c = '\n' || c = '\r' || c = '\x0b' || c = '\x0c'

/-- Python `str.strip()` on the character list. -/
def py_strip_chars (l : List Char) : List Char :=
  ((l.dropWhile is_py_space).reverse.dropWhile is_py_space).reverse

/-- Python `str.strip()`. -/
def py_strip (s : String) : String := String.mk (py_strip_chars s.data)

/-- Consume up to `n` further `'#'` characters (the greedy tail of `#{1,6}`
after its first mandatory `'#'`). -/
def drop_hashes : Nat → List Char → List Char
  | 0, l => l
  | _ + 1, [] => []
  | n + 1, c :: rest => if c = '#' then drop_hashes n rest else c :: rest

theorem drop_hashes_length_le : ∀ (n : Nat) (l : List Char),
    (drop_hashes n l).length ≤ l.length := by
  intro n
  induction n with
  | zero => intro l; simp [drop_hashes]
  | succ n ih =>
    intro l
    match l with
    | [] => simp [drop_hashes]
    | c :: rest =>
      rw [drop_hashes]
      split
      · exact le_trans (ih rest) (by simp)
      · simp

theorem dropWhile_length_le (p : Char → Bool) :
    ∀ l : List Char, (l.dropWhile p).length ≤ l.length := by
  intro l
  induction l with
  | nil => simp
  | cons c rest ih =>
    rw [List.dropWhile_cons]
    split
    · exact le_trans ih (by simp)
    · simp

/-- `re.sub(r'#{1,6}\s*', '', text)`: at each `'#'`, consume that `'#'`, up to
five more, then the following whitespace run, and continue scanning after the
removed match; other characters are kept. -/
def sub_hash_go : Nat → List Char → List Char
  | 0, l => l
  | _ + 1, [] => []
  | fuel + 1, c :: rest =>
    if c = '#' then sub_hash_go fuel ((drop_hashes 5 rest).dropWhile is_py_space)
    else c :: sub_hash_go fuel rest

/-- The `#{1,6}\s*` pass on a whole character list.  The `fuel` argument of
`sub_hash_go` only bounds the recursion; each step strictly shrinks the
remaining input, so fuel `l.length` is never exhausted. -/
def sub_hash (l : List Char) : List Char := sub_hash_go l.length l

/-- Minimal-match search for a closing `'**'` on the same line: the non-greedy
`(.*?)\*\*` of the bold pattern.  Returns the characters matched by `.*?` and
the remainder after the closing `'**'`; fails at end of input or at a newline
(`.` does not match `'\n'`). -/
def find_close2 : List Char → Option (List Char × List Char)
  | [] => none
  | [_] => none
  | c :: d :: rest =>
    if c = '*' ∧ d = '*' then some ([], rest)
    else if c = '\n' then none
    else
      match find_close2 (d :: rest) with
      | some (content, r) => some (c :: content, r)
      | none => none

theorem find_close2_length :
    ∀ (l a b : List Char), find_close2 l = some (a, b) → b.length < l.length := by
  intro l
  induction l with
  | nil => intro a b h; simp [find_close2] at h
  | cons c tail ih =>
    intro a b h
    match tail with
    | [] => simp [find_close2] at h
    | d :: rest =>
      rw [find_close2] at h
      split at h
      · obtain ⟨rfl, rfl⟩ : a = [] ∧ rest = b := by
          simpa using h
        simp; omega
      · split at h
        · simp at h
        · split at h
          · next content r heq =>
            obtain ⟨rfl, rfl⟩ : c :: content = a ∧ r = b := by
              simpa using h
            have := ih content _ heq
            simp at this ⊢
            omega
          · simp at h

theorem find_close2_mem :
    ∀ (l a b : List Char), find_close2 l = some (a, b) →
      (∀ x ∈ a, x ∈ l) ∧ (∀ x ∈ b, x ∈ l) := by
  intro l
  induction l with
  | nil => intro a b h; simp [find_close2] at h
  | cons c tail ih =>
    intro a b h
    match tail with
    | [] => simp [find_close2] at h
    | d :: rest =>
      rw [find_close2] at h
      split at h
      · obtain ⟨rfl, rfl⟩ : a = [] ∧ rest = b := by simpa using h
        constructor
        · simp
        · intro x hx; simp [hx]
      · split at h
        · simp at h
        · split at h
          · next content r heq =>
            obtain ⟨rfl, rfl⟩ : c :: content = a ∧ r = b := by simpa using h
            obtain ⟨hma, hmb⟩ := ih content _ heq
            constructor
            · intro x hx
              rcases List.mem_cons.mp hx with h' | h'
              · simp [h']
              · simpa using Or.inr (hma x h')
            · intro x hx
              simpa using Or.inr (hmb x hx)
          · simp at h

/-- `re.sub(r'\*\*(.*?)\*\*', r'\1', text)`: at `'**'`, find the nearest
closing `'**'` on the same line; if found, emit the captured content and
continue after the match; if not, the first `'*'` is kept and scanning resumes
at the next character. -/
def sub_bold_go : Nat → List Char → List Char
  | 0, l => l
  | _ + 1, [] => []
  | _ + 1, [c] => [c]
  | fuel + 1, c :: d :: rest =>
    if c = '*' ∧ d = '*' then
      match find_close2 rest with
      | some (content, r) => content ++ sub_bold_go fuel r
      | none => c :: sub_bold_go fuel (d :: rest)
    else c :: sub_bold_go fuel (d :: rest)

/-- The bold pass on a whole character list (fuel as in `sub_hash`). -/
def sub_bold (l : List Char) : List Char := sub_bold_go l.length l

/-- Minimal-match search for a closing `'*'` on the same line: the non-greedy
`(.*?)\*` of the emphasis pattern. -/
def find_close1 : List Char → Option (List Char × List Char)
  | [] => none
  | c :: rest =>
    if c = '*' then some ([], rest)
    else if c = '\n' then none
    else
      match find_close1 rest with
      | some (content, r) => some (c :: content, r)
      | none => none

theorem find_close1_length :
    ∀ (l a b : List Char), find_close1 l = some (a, b) → b.length < l.length := by
  intro l
  induction l with
  | nil => intro a b h; simp [find_close1] at h
  | cons c rest ih =>
    intro a b h
    rw [find_close1] at h
    split at h
    · obtain ⟨rfl, rfl⟩ : a = [] ∧ rest = b := by simpa using h
      simp
    · split at h
      · simp at h
      · split at h
        · next content r heq =>
          obtain ⟨rfl, rfl⟩ : c :: content = a ∧ r = b := by simpa using h
          have := ih content _ heq
          simp at this ⊢
          omega
        · simp at h

theorem find_close1_mem :
    ∀ (l a b : List Char), find_close1 l = some (a, b) →
      (∀ x ∈ a, x ∈ l) ∧ (∀ x ∈ b, x ∈ l) := by
  intro l
  induction l with
  | nil => intro a b h; simp [find_close1] at h
  | cons c rest ih =>
    intro a b h
    rw [find_close1] at h
    split at h
    · obtain ⟨rfl, rfl⟩ : a = [] ∧ rest = b := by simpa using h
      exact ⟨by simp, fun x hx => by simp [hx]⟩
    · split at h
      · simp at h
      · split at h
        · next content r heq =>
          obtain ⟨rfl, rfl⟩ : c :: content = a ∧ r = b := by simpa using h
          obtain ⟨hma, hmb⟩ := ih content _ heq
          constructor
          · intro x hx
            rcases List.mem_cons.mp hx with h' | h'
            · simp [h']
            · simpa using Or.inr (hma x h')
          · intro x hx
            simpa using Or.inr (hmb x hx)
        · simp at h

/-- `re.sub(r'\*(.*?)\*', r'\1', text)`. -/
def sub_star_go : Nat → List Char → List Char
  | 0, l => l
  | _ + 1, [] => []
  | fuel + 1, c :: rest =>
    if c = '*' then
      match find_close1 rest with
      | some (content, r) => content ++ sub_star_go fuel r
      | none => c :: sub_star_go fuel rest
    else c :: sub_star_go fuel rest

/-- The emphasis pass on a whole character list (fuel as in `sub_hash`). -/
def sub_star (l : List Char) : List Char := sub_star_go l.length l

/-- `Storybook.strip_markdown`: the three regex passes followed by
`str.strip()`. -/
def strip_markdown (s : String) : String :=
  py_strip (String.mk (sub_star (sub_bold (sub_hash s.data))))

theorem dropWhile_mem (p : Char → Bool) :
    ∀ (l : List Char) (x : Char), x ∈ l.dropWhile p → x ∈ l := by
  intro l
  induction l with
  | nil => simp
  | cons c rest ih =>
    intro x hx
    rw [List.dropWhile_cons] at hx
    split at hx
    · exact List.mem_cons.mpr (Or.inr (ih x hx))
    · exact hx

theorem py_strip_chars_mem (l : List Char) (x : Char) :
    x ∈ py_strip_chars l → x ∈ l := by
  intro h
  unfold py_strip_chars at h
  have h1 := List.mem_reverse.mp h
  have h2 := dropWhile_mem _ _ _ h1
  have h3 := List.mem_reverse.mp h2
  exact dropWhile_mem _ _ _ h3

theorem sub_hash_go_no_hash : ∀ (fuel : Nat) (l : List Char), l.length ≤ fuel →
    '#' ∉ sub_hash_go fuel l := by
  intro fuel
  induction fuel with
  | zero =>
    intro l hl
    have hnil : l = [] := List.eq_nil_of_length_eq_zero (Nat.le_zero.mp hl)
    subst hnil
    simp [sub_hash_go]
  | succ n ih =>
    intro l hl
    match l with
    | [] => simp [sub_hash_go]
    | c :: rest =>
      rw [sub_hash_go]
      by_cases hc : c = '#'
      · rw [if_pos hc]
        refine ih _ ?_
        have h1 := drop_hashes_length_le 5 rest
        have h2 := dropWhile_length_le is_py_space (drop_hashes 5 rest)
        simp only [List.length_cons] at hl
        omega
      · rw [if_neg hc]
        intro hmem
        rcases List.mem_cons.mp hmem with h' | h'
        · exact hc h'.symm
        · refine ih rest ?_ h'
          simp only [List.length_cons] at hl
          omega

theorem sub_hash_no_hash (l : List Char) : '#' ∉ sub_hash l :=
  sub_hash_go_no_hash l.length l le_rfl

theorem sub_bold_go_mem : ∀ (fuel : Nat) (l : List Char),
    ∀ x ∈ sub_bold_go fuel l, x ∈ l := by
  intro fuel
  induction fuel with
  | zero => intro l x hx; simpa [sub_bold_go] using hx
  | succ n ih =>
    intro l x hx
    match l with
    | [] => simp [sub_bold_go] at hx
    | [c] => simpa [sub_bold_go] using hx
    | c :: d :: rest =>
      rw [sub_bold_go] at hx
      split at hx
      · split at hx
        · next content r heq =>
          rcases List.mem_append.mp hx with h' | h'
          · have := (find_close2_mem rest content r heq).1 x h'
            simp [this]
          · have hxr := ih r x h'
            have := (find_close2_mem rest content r heq).2 x hxr
            simp [this]
        · rcases List.mem_cons.mp hx with h' | h'
          · simp [h']
          · exact List.mem_cons.mpr (Or.inr (ih (d :: rest) x h'))
      · rcases List.mem_cons.mp hx with h' | h'
        · simp [h']
        · exact List.mem_cons.mpr (Or.inr (ih (d :: rest) x h'))

theorem sub_bold_mem (l : List Char) (x : Char) : x ∈ sub_bold l → x ∈ l :=
  sub_bold_go_mem l.length l x

theorem sub_star_go_mem : ∀ (fuel : Nat) (l : List Char),
    ∀ x ∈ sub_star_go fuel l, x ∈ l := by
  intro fuel
  induction fuel with
  | zero => intro l x hx; simpa [sub_star_go] using hx
  | succ n ih =>
    intro l x hx
    match l with
    | [] => simp [sub_star_go] at hx
    | c :: rest =>
      rw [sub_star_go] at hx
      split at hx
      · split at hx
        · next content r heq =>
          rcases List.mem_append.mp hx with h' | h'
          · have := (find_close1_mem rest content r heq).1 x h'
            simp [this]
          · have hxr := ih r x h'
            have := (find_close1_mem rest content r heq).2 x hxr
            simp [this]
        · rcases List.mem_cons.mp hx with h' | h'
          · simp [h']
          · exact List.mem_cons.mpr (Or.inr (ih rest x h'))
      · rcases List.mem_cons.mp hx with h' | h'
        · simp [h']
        · exact List.mem_cons.mpr (Or.inr (ih rest x h'))

theorem sub_star_mem (l : List Char) (x : Char) : x ∈ sub_star l → x ∈ l :=
  sub_star_go_mem l.length l x

/-- C5 counterexample: `strip_markdown` is not total on emphasis markers — on
the input `"*"`, a single unpaired asterisk, the output still contains the
marker character `'*'`, refuting the claim that the output contains no
residual marker characters for every input. -/
theorem strip_markdown_counterexample :
    strip_markdown "*" = "*" ∧ '*' ∈ (strip_markdown "*").data := by
  constructor
  · rfl
  · decide

/-- C5 (amended): heading-marker stripping is total — for every input text the
output of `strip_markdown` contains no `'#'` character — but emphasis-marker
stripping is not: an input with an unpaired (odd) asterisk can leave a
residual `'*'` in the output, as the counterexample input `"*"` shows. -/
theorem strip_markdown_no_hash (s : String) : '#' ∉ (strip_markdown s).data := by
  intro hmem
  have h0 : '#' ∈ py_strip_chars (sub_star (sub_bold (sub_hash s.data))) := hmem
  have h1 := py_strip_chars_mem _ _ h0
  have h2 := sub_star_mem _ _ h1
  have h3 := sub_bold_mem _ _ h2
  exact sub_hash_no_hash _ h3

theorem strip_markdown_no_hash_witness : '#' ∉ (strip_markdown "# Hello").data :=
  strip_markdown_no_hash "# Hello"

/-! ## Pagination (`Storybook.load_story` / `_create_page`, storybook_ui.py
lines 474-546)

Font metrics and viewport geometry are runtime inputs of the code
(`pygame.font.Font` objects and the `text_area` rectangle); they appear here
as parameters: `tsize`/`bsize` are `font.size(·)[0]` for the title and text
fonts, `title_h` is `title_font.get_height()`, `body_h` the rendered height
of a body line, `width`/`page_h` the text-area width and height. -/

/-- Layout constant `PARAGRAPH_SPACING` (storybook_ui.py line 77). -/
def PARAGRAPH_SPACING : Nat := 20

/-- Layout constant `EXTRA_LINE_SPACING` (storybook_ui.py line 78). -/
def EXTRA_LINE_SPACING : Nat := 4

/-- Title/content parsing at the top of `load_story` (lines 481-487), applied
to the already markdown-stripped text: a leading `"Title: "` marks the part
before the first blank line as the title (with all `"Title: "` occurrences
removed and the result stripped) and the rest as the content; otherwise the
title is `"A Story"` and the whole text is the content. -/
def parse_story (text : String) : String × String :=
  if starts_with "Title: ".data text.data then
    let p := py_split_once text "\n\n"
    (py_strip (py_replace p.1 "Title: " ""), (p.2).getD "")
  else ("A Story", text)

/-- A page surface: the title lines blitted by `_create_page` (title line `i`
sits at vertical offset `i * title_h`) and the body lines blitted by
`load_story`, each paired with its vertical offset. -/
structure PageBuf where
  title_lines : List String
  body : List (String × Nat)
deriving Repr, DecidableEq

/-- `Storybook._create_page(title)`: a fresh page surface; when a title is
given it is wrapped with the title font and blitted from offset 0 downward. -/
def create_page (tsize : String → Nat) (width : Nat) : Option String → PageBuf
  | none => ⟨[], []⟩
  | some t => ⟨wrap_text t tsize width, []⟩

/-- One body line of the `load_story` loop (lines 503-513): seal the current
page and start a blank one at offset 0 when the line would overflow, then
blit the line at the current offset and advance the offset by the line height
plus `EXTRA_LINE_SPACING`. -/
def place_line (body_h page_h : Nat) :
    List PageBuf × PageBuf × Nat → String → List PageBuf × PageBuf × Nat
  | (pages, cur, y), line =>
    if page_h < y + body_h then
      (pages ++ [cur], ⟨[], [(line, 0)]⟩, body_h + EXTRA_LINE_SPACING)
    else
      (pages, ⟨cur.title_lines, cur.body ++ [(line, y)]⟩,
        y + body_h + EXTRA_LINE_SPACING)

/-- One paragraph of the `load_story` loop (lines 495-515): wrap it with the
text font, place its lines, then add `PARAGRAPH_SPACING` to the running
offset. -/
def place_paragraph (bsize : String → Nat) (body_h width page_h : Nat)
    (st : List PageBuf × PageBuf × Nat) (para : String) :
    List PageBuf × PageBuf × Nat :=
  let st2 := (wrap_text para bsize width).foldl (place_line body_h page_h) st
  (st2.1, st2.2.1, st2.2.2 + PARAGRAPH_SPACING)

/-- `Storybook.load_story(story_text)` (lines 474-519): strip markdown, parse
title and content, create the first page carrying the title, initialise the
running offset with a single title-line height plus `PARAGRAPH_SPACING`
(line 491), place every paragraph, and finally seal the current page.
`sleep_request` is the value of the `self._sleep_request` interrupt flag read
at the per-paragraph checkpoint (line 497); when it is set the function
returns the pages sealed so far — before the first paragraph nothing has been
sealed — without appending the final page. -/
def load_story (tsize bsize : String → Nat) (title_h body_h width page_h : Nat)
    (sleep_request : Bool) (story_text : String) : List PageBuf :=
  let text := strip_markdown story_text
  let tc := parse_story text
  let first := create_page tsize width (some tc.1)
  let y0 := title_h + PARAGRAPH_SPACING
  if sleep_request then []
  else
    let st := (py_split tc.2 "\n\n").foldl
      (place_paragraph bsize body_h width page_h) ([], first, y0)
    st.1 ++ [st.2.1]

theorem wrap_text_empty (bsize : String → Nat) (width : Nat) :
    wrap_text "" bsize width = [""] := by
  have hs : split_words "" = [""] := rfl
  by_cases h : bsize (join_words ([] ++ [""])) ≤ width <;>
    simp [wrap_text, hs, wrap_groups, h, join_words]

/-- C8: pagination that runs to completion (the interrupt flag unset at its
checkpoint) always seals and appends the final page, so `load_story` produces
at least one page for every story text; and when the parsed body is empty the
result is exactly one page that carries only the title: its body content is
the single empty wrapped line (which renders no visible text), placed just
below one title-line height. -/
theorem load_story_final_page_sealed (tsize bsize : String → Nat)
    (title_h body_h width page_h : Nat) (story_text : String) :
    1 ≤ (load_story tsize bsize title_h body_h width page_h false story_text).length ∧
    ((parse_story (strip_markdown story_text)).2 = "" →
      title_h + PARAGRAPH_SPACING + body_h ≤ page_h →
      load_story tsize bsize title_h body_h width page_h false story_text
        = [⟨wrap_text (parse_story (strip_markdown story_text)).1 tsize width,
            [("", title_h + PARAGRAPH_SPACING)]⟩]) := by
  constructor
  · simp [load_story]
  · intro hempty hgeom
    have hsp : py_split "" "\n\n" = [""] := rfl
    have hw : wrap_text "" bsize width = [""] := wrap_text_empty bsize width
    have hnotlt : ¬ page_h < title_h + PARAGRAPH_SPACING + body_h := by omega
    simp [load_story, hempty, hsp, place_paragraph, hw, place_line, hnotlt,
      create_page]

theorem load_story_final_page_sealed_witness :
    load_story (fun s => 20 * s.length) (fun s => s.length) 40 22 100 800 false
        "Title: Foo"
      = [⟨["Foo"], [("", 60)]⟩] := by
  have h := (load_story_final_page_sealed (fun s => 20 * s.length)
    (fun s => s.length) 40 22 100 800 "Title: Foo").2 (by decide) (by decide)
  rw [h]
  decide

/-- C4 (code bug): `load_story` initialises the first page's running offset
with a single title-line height (line 491: `y_offset =
self.title_font.get_height() + PARAGRAPH_SPACING`) regardless of how many
lines the title wrapped to.  With title-line height 40 and a title wrapping
to the two lines "aaaa"/"bbbb" — rendered by `_create_page` at offsets 0 and
40, so the title block covers 0..80 — the first body line is blitted at
offset 60 < 80, overlapping the second title line instead of being stacked
strictly below the full title block as the claim states. -/
theorem load_story_title_overlap :
    load_story (fun s => 20 * s.length) (fun s => s.length) 40 22 100 800 false
        "Title: aaaa bbbb\n\nhello"
      = [⟨["aaaa", "bbbb"], [("hello", 60)]⟩] ∧ 60 < 2 * 40 :=
  ⟨by decide, by decide⟩

/-! ## Session controller state (`Storybook.new_story` / navigation,
storybook_ui.py lines 548-747)

The controller state abstracts the `Storybook` object: the busy and
interrupt flags, the lengths of `self.pages` and `self.stories`, the two
cursors, and whether `self.listener` was successfully initialised.  Cursors
are integers, as in Python (where `self.current_page = len(self.pages) - 1`
can be negative).  Page counts produced by reloading a story are supplied by
the oracle `pc : Int → Nat` (the length of `self.pages` after
`load_story(self.stories[i])`).  Functions that can raise a Python
`IndexError` return `Except String`. -/

/-- The controller-visible state of the `Storybook` object. -/
structure SBState where
  busy : Bool
  sleep_request : Bool
  num_pages : Nat
  num_stories : Nat
  current_page : Int
  current_story : Int
  has_listener : Bool
deriving Repr, DecidableEq

/-- `Storybook.display_message` (lines 384-401): sets `self._busy = True` on
entry and `self._busy = False` just before returning, so its net effect on
the state at return is `busy := false` — whatever `busy` was before. -/
def display_message (s : SBState) : SBState := { s with busy := false }

/-- `Storybook.display_current_page` (lines 548-568): sets `busy := true`,
indexes `self.pages[self.current_page]` when `self.pages` is non-empty —
raising `IndexError` when the cursor is outside Python's valid index range
`-len(pages) <= i < len(pages)` — draws, and sets `busy := false`. -/
def display_current_page (s : SBState) : Except String SBState :=
  if s.num_pages ≠ 0 ∧
      ((s.num_pages : Int) ≤ s.current_page ∨ s.current_page < -(s.num_pages : Int)) then
    .error "IndexError"
  else
    .ok { s with busy := false }

/-- The state effect of `Storybook.load_story` (lines 474-519) as seen by the
controller: recompute `self.pages` for the story at `current_story` (the
`pc` oracle) and finish with `busy := false` (no interrupt outstanding). -/
def load_story_state (pc : Int → Nat) (s : SBState) : SBState :=
  { s with busy := false, num_pages := pc s.current_story }

/-- Outcome of the background listen thread started by `new_story`:
`thread_timed_out` is `thread.is_alive()` after the `VOICE_TIMEOUT` join,
`listen_error` is `listen_error[0]`, `listen_result` is `listen_result[0]`
(the recognised prompt, `none` on timeout/unrecognised speech). -/
structure ListenEnv where
  thread_timed_out : Bool
  listen_error : Option String
  listen_result : Option String
deriving Repr, DecidableEq

/-- Observations recorded along a run of `new_story`: whether the listen
thread was started (the capture invocation), and — when it was — the value of
`self._busy` while the foreground waits on `thread.join(timeout=VOICE_TIMEOUT)`,
i.e. while the listen step is in flight. -/
structure NewStoryObs where
  capture_started : Bool
  busy_during_listen : Option Bool
deriving Repr, DecidableEq

/-- `Storybook.new_story` (lines 596-747), step by step:
reject when `_busy` is set (line 599); without a listener show a message and
redisplay (lines 602-606); otherwise set `_busy = True` (line 608), call
`display_message` (line 609, which resets `_busy` to `False` on return),
check the interrupt flag, start the listen thread and join it with a timeout,
then route on the outcome: thread still alive, listen error, interrupt, empty
or missing prompt — each showing a message, clearing `_busy` and
redisplaying — and on a prompt generate (the UI `generate_story` returns
`None` only when the interrupt flag is set, a fallback string otherwise),
append the story, reset the cursors, reload, and display.  The interrupt
flag is modelled as constant over the run. -/
def new_story (pc : Int → Nat) (env : ListenEnv) (s : SBState) :
    Except String (SBState × NewStoryObs) :=
  if s.busy then .ok (s, ⟨false, none⟩)
  else if s.has_listener = false then
    let s1 := display_message s
    if s1.num_pages ≠ 0 then
      (display_current_page s1).map (fun t => (t, ⟨false, none⟩))
    else .ok (s1, ⟨false, none⟩)
  else
    let s1 := display_message { s with busy := true }
    if s1.sleep_request then .ok ({ s1 with busy := false }, ⟨false, none⟩)
    else
      let obs : NewStoryObs := ⟨true, some s1.busy⟩
      if env.thread_timed_out then
        let s2 : SBState := { display_message s1 with busy := false }
        if s2.num_pages ≠ 0 then
          (display_current_page s2).map (fun t => (t, obs))
        else .ok (s2, obs)
      else if env.listen_error.isSome then
        let s2 : SBState := { display_message s1 with busy := false }
        if s2.num_pages ≠ 0 then
          (display_current_page s2).map (fun t => (t, obs))
        else .ok (s2, obs)
      else if s1.sleep_request then .ok ({ s1 with busy := false }, obs)
      else if env.listen_result = none ∨ env.listen_result = some "" then
        let s2 : SBState := { display_message s1 with busy := false }
        if s2.num_pages ≠ 0 then
          (display_current_page s2).map (fun t => (t, obs))
        else .ok (s2, obs)
      else
        if s1.sleep_request then .ok ({ s1 with busy := false }, obs)
        else
          let s2 := { s1 with num_stories := s1.num_stories + 1 }
          let s3 := { s2 with current_story := (s2.num_stories : Int) - 1,
                              current_page := 0 }
          let s4 := load_story_state pc s3
          if s4.sleep_request then .ok ({ s4 with busy := false }, obs)
          else (display_current_page s4).map (fun t => (t, obs))

/-- `Storybook.next_page` (lines 581-594): increment the page cursor; when it
reaches the end of the loaded pages, either advance to the next story (reload
and reset the cursor) or — on the last story — hand over to `new_story`. -/
def next_page (pc : Int → Nat) (env : ListenEnv) (s : SBState) :
    Except String (SBState × NewStoryObs) :=
  let s1 := { s with current_page := s.current_page + 1 }
  if (s1.num_pages : Int) ≤ s1.current_page then
    if s1.current_story < (s1.num_stories : Int) - 1 then
      let s2 := { s1 with current_story := s1.current_story + 1 }
      let s3 := load_story_state pc s2
      let s4 := { s3 with current_page := 0 }
      (display_current_page s4).map (fun t => (t, ⟨false, none⟩))
    else
      new_story pc env s1
  else
    (display_current_page s1).map (fun t => (t, ⟨false, none⟩))

/-- `Storybook.previous_page` (lines 570-579): step back within the loaded
pages, or reload the previous story and jump to its last page; on page 0 of
story 0 neither branch fires and the cursors are left unchanged.  Always ends
by displaying the current page. -/
def previous_page (pc : Int → Nat) (s : SBState) : Except String SBState :=
  let s1 :=
    if s.current_page > 0 then { s with current_page := s.current_page - 1 }
    else if s.current_story > 0 then
      let s2 := { s with current_story := s.current_story - 1 }
      let s3 := load_story_state pc s2
      { s3 with current_page := (s3.num_pages : Int) - 1 }
    else s
  display_current_page s1

/-- C1 (code bug): from the idle state (`_busy` unset, listener available,
no interrupt) with a working microphone, `new_story` sets `_busy = True`
(line 608) but the immediately following `display_message` call (line 609)
resets it to `False` on return, so `_busy` is `False` while the listen step
is in flight (`busy_during_listen = some false`) and for the rest of the
pipeline — it does not remain true from the start of the pipeline until its
completion.  The guard itself works: with `_busy` already set, `new_story`
returns at once without starting a capture (second conjunct). -/
theorem new_story_busy_cleared_during_listen :
    new_story (fun _ => 1) ⟨false, none, some "a dragon"⟩
        ⟨false, false, 0, 0, 0, 0, true⟩
      = .ok (⟨false, false, 1, 1, 0, 0, true⟩, ⟨true, some false⟩) ∧
    new_story (fun _ => 1) ⟨false, none, some "a dragon"⟩
        ⟨true, false, 0, 0, 0, 0, true⟩
      = .ok (⟨true, false, 0, 0, 0, 0, true⟩, ⟨false, none⟩) :=
  ⟨rfl, rfl⟩

/-- C2 (code bug): with one story of one page loaded and the cursor on its
last page, `next_page` increments `current_page` to `1 = len(pages)` and
hands over to `new_story`; when `new_story` returns early without producing
a story the cursor invariant `0 <= current_page < len(pages)` is violated.
First conjunct: with the interrupt flag set, `new_story` early-returns and
the final state has `current_page = 1` with `num_pages = 1` (second conjunct:
that state violates the invariant).  Third conjunct: with no listener,
`new_story`'s early path itself calls `display_current_page`, which indexes
`self.pages[1]` and raises `IndexError`. -/
theorem next_page_invariant_broken :
    next_page (fun _ => 1) ⟨false, none, none⟩ ⟨false, true, 1, 1, 0, 0, true⟩
      = .ok (⟨false, true, 1, 1, 1, 0, true⟩, ⟨false, none⟩) ∧
    ¬ ((⟨false, true, 1, 1, 1, 0, true⟩ : SBState).current_page
        < ((⟨false, true, 1, 1, 1, 0, true⟩ : SBState).num_pages : Int)) ∧
    next_page (fun _ => 1) ⟨false, none, none⟩ ⟨false, false, 1, 1, 0, 0, false⟩
      = .error "IndexError" :=
  ⟨rfl, by decide, rfl⟩

/-- C7: navigation does not wrap at either end.  Advancing from the last page
of the last story (`current_page = num_pages - 1`, `current_story =
num_stories - 1`) makes `next_page` hand over to the new-story flow on the
incremented cursor — it neither wraps to an earlier page nor errors in
`next_page` itself.  Retreating on page 0 of story 0 leaves every cursor and
collection unchanged (only the transient `_busy` flag is reset by the final
`display_current_page`): `previous_page` returns the input state with
`busy := false`. -/
theorem navigation_does_not_wrap (pc : Int → Nat) (env : ListenEnv) (s : SBState) :
    (s.current_page = (s.num_pages : Int) - 1 →
      s.current_story = (s.num_stories : Int) - 1 →
      next_page pc env s
        = new_story pc env { s with current_page := s.current_page + 1 }) ∧
    (s.current_page = 0 → s.current_story = 0 →
      previous_page pc s = .ok { s with busy := false }) := by
  constructor
  · intro hcp hcs
    have hc1 : (s.num_pages : Int) ≤ s.current_page + 1 := by omega
    have hc2 : ¬ (s.current_story < (s.num_stories : Int) - 1) := by omega
    simp [next_page, hc1, hc2]
  · intro hcp hcs
    have hnoerr : ¬ (s.num_pages ≠ 0 ∧
        ((s.num_pages : Int) ≤ s.current_page ∨
          s.current_page < -(s.num_pages : Int))) := by
      rintro ⟨h1, h2⟩
      rcases h2 with h2 | h2 <;> omega
    simp [previous_page, hcp, hcs, display_current_page, hnoerr]

theorem navigation_does_not_wrap_witness :
    next_page (fun _ => 1) ⟨false, none, none⟩ ⟨false, false, 2, 2, 1, 1, true⟩
      = new_story (fun _ => 1) ⟨false, none, none⟩ ⟨false, false, 2, 2, 2, 1, true⟩ ∧
    previous_page (fun _ => 1) ⟨false, false, 2, 2, 0, 0, true⟩
      = .ok ⟨false, false, 2, 2, 0, 0, true⟩ := by
  constructor
  · exact (navigation_does_not_wrap (fun _ => 1) ⟨false, none, none⟩
      ⟨false, false, 2, 2, 1, 1, true⟩).1 (by decide) (by decide)
  · exact (navigation_does_not_wrap (fun _ => 1) ⟨false, none, none⟩
      ⟨false, false, 2, 2, 0, 0, true⟩).2 (by decide) (by decide)

/-! ## Generation client (`generate_story`, storybook.py lines 24-86, with
the constants of config.py) -/

/-- `MAX_RETRIES` (config.py line 31). -/
def MAX_RETRIES : Nat := 3

/-- The `MODE` configuration value (config.py line 5): `"local"` or
`"server"`. -/
inductive Mode
  | localMode
  | serverMode
deriving Repr, DecidableEq

/-- The outcome of one `requests.post` attempt as the code classifies it:
a successful response carrying the response text,
`requests.exceptions.Timeout`, `requests.exceptions.ConnectionError`, or any
other exception (bad HTTP status raised by `raise_for_status`, malformed
JSON, ...). -/
inductive AttemptOutcome
  | success (text : String)
  | timeout
  | connError
  | otherError
deriving Repr, DecidableEq

/-- The mode-specific fallback returned on `ConnectionError` without retrying
(storybook.py lines 69-79). -/
def conn_fallback : Mode → String
  | .serverMode =>
    "The magic book can\x27t reach the story server right now. Are we connected to the school network?"
  | .localMode =>
    "The magic book\x27s storyteller is sleeping. Please wake it up and try again!"

/-- The mode-specific fallback returned by the outer `except Exception`
handler (storybook.py lines 81-86), reached also when the final timeout
re-raises. -/
def generic_fallback : Mode → String
  | .serverMode => "The story server seems to be having trouble. Try again in a moment!"
  | .localMode => "The magic had a little hiccup. Try again!"

/-- The `for attempt in range(MAX_RETRIES)` loop (storybook.py lines 40-79),
with the outcome of attempt `i` supplied by the oracle `out`.  Returns the
text handed to the caller together with the number of request attempts made.
`success` returns the stripped response text; `connError` returns the mode
fallback without retrying; `otherError` escapes to the outer handler, which
returns the generic fallback; `timeout` sleeps and retries unless this was
the final attempt, in which case the exception is re-raised and the outer
handler returns the generic fallback.  `fuel` counts the remaining loop
iterations (`MAX_RETRIES - i`), so it is never exhausted when the loop starts
at attempt 0 with `MAX_RETRIES` iterations. -/
def gen_loop (mode : Mode) (out : Nat → AttemptOutcome) : Nat → Nat → String × Nat
  | i, 0 => (generic_fallback mode, i)
  | i, fuel + 1 =>
    match out i with
    | .success t => (py_strip t, i + 1)
    | .connError => (conn_fallback mode, i + 1)
    | .otherError => (generic_fallback mode, i + 1)
    | .timeout =>
      if i < MAX_RETRIES - 1 then gen_loop mode out (i + 1) fuel
      else (generic_fallback mode, i + 1)

/-- `generate_story(prompt)` of storybook.py: the retry loop started at
attempt 0 with `MAX_RETRIES` iterations available.  Every path returns a
string to the caller; no exception escapes. -/
def generate_story (mode : Mode) (out : Nat → AttemptOutcome) : String × Nat :=
  gen_loop mode out 0 MAX_RETRIES

theorem gen_loop_attempts_le (mode : Mode) (out : Nat → AttemptOutcome) :
    ∀ (fuel i : Nat), (gen_loop mode out i fuel).2 ≤ i + fuel := by
  intro fuel
  induction fuel with
  | zero => intro i; simp [gen_loop]
  | succ n ih =>
    intro i
    rw [gen_loop]
    cases hout : out i
    · simp
    · simp only
      split
      · exact le_trans (ih (i + 1)) (by omega)
      · simp
    · simp
    · simp

/-- C3: the generation client makes at most `MAX_RETRIES` request attempts;
when every attempt times out it makes exactly `MAX_RETRIES` attempts and then
returns the non-empty generic fallback to its caller instead of raising (the
final timeout is re-raised internally but swallowed by the outer
`except Exception` handler); and on every outcome sequence the function
returns displayable text — its return type is total, no exception
propagates. -/
theorem generate_story_retry_bound (mode : Mode) (out : Nat → AttemptOutcome) :
    (generate_story mode out).2 ≤ MAX_RETRIES ∧
    ((∀ i, i < MAX_RETRIES → out i = .timeout) →
      generate_story mode out = (generic_fallback mode, MAX_RETRIES) ∧
      0 < (generic_fallback mode).length) := by
  constructor
  · simpa using gen_loop_attempts_le mode out MAX_RETRIES 0
  · intro h
    have h0 := h 0 (by norm_num [MAX_RETRIES])
    have h1 := h 1 (by norm_num [MAX_RETRIES])
    have h2 := h 2 (by norm_num [MAX_RETRIES])
    refine ⟨?_, ?_⟩
    · simp [generate_story, MAX_RETRIES, gen_loop, h0, h1, h2]
    · cases mode <;> decide

theorem generate_story_retry_bound_witness :
    generate_story Mode.localMode (fun _ => AttemptOutcome.timeout)
      = (generic_fallback Mode.localMode, MAX_RETRIES) :=
  ((generate_story_retry_bound Mode.localMode (fun _ => .timeout)).2
    (fun _ _ => rfl)).1

/-! ## Secret-exit gesture (`Storybook.handle_events`, storybook_ui.py
lines 761-772) -/

/-- One corner tap at time `now` (seconds, `time.time()`): append the tap
time to `self._corner_taps`, keep only the entries strictly younger than
3 seconds, and request shutdown when at least 3 remain.  The two
`time.time()` calls of lines 766-768 (append and prune) are modelled as the
same instant `now`. -/
def corner_tap (now : ℚ) (taps : List ℚ) : List ℚ × Bool :=
  let taps2 := (taps ++ [now]).filter (fun t => decide (now - t < 3))
  (taps2, decide (3 ≤ taps2.length))

/-- A sequence of corner taps processed by successive `handle_events` passes;
once shutdown is requested (`self._running = False; return`, lines 770-772)
later taps are no longer processed.  Returns whether shutdown was
requested. -/
def run_taps (ts : List ℚ) : Bool :=
  (ts.foldl (fun acc now => if acc.2 then acc else corner_tap now acc.1)
    (([] : List ℚ), false)).2

/-- C9: the tap list is pruned on every new tap — after `corner_tap` every
remaining entry is strictly younger than 3 seconds — and the gesture fires
exactly on 3 taps inside the sliding window: for every base time `t`, corner
taps at `t`, `t+1`, `t+2.5` request shutdown on the third tap, while taps at
`t`, `t+1`, `t+3.5` do not (the tap at `t` has expired from the window when
the third tap is processed). -/
theorem secret_exit_window (t : ℚ) :
    (∀ (now : ℚ) (taps : List ℚ), ∀ x ∈ (corner_tap now taps).1, now - x < 3) ∧
    run_taps [t, t + 1, t + 5/2] = true ∧
    run_taps [t, t + 1, t + 7/2] = false := by
  refine ⟨?_, ?_, ?_⟩
  · intro now taps x hx
    simp only [corner_tap, List.mem_filter, decide_eq_true_eq] at hx
    exact hx.2
  · simp [run_taps, corner_tap, List.filter_cons]
    norm_num
  · simp [run_taps, corner_tap, List.filter_cons]
    norm_num

theorem secret_exit_window_witness :
    run_taps [(0 : ℚ), 0 + 1, 0 + 5/2] = true ∧
    run_taps [(0 : ℚ), 0 + 1, 0 + 7/2] = false :=
  ⟨(secret_exit_window 0).2.1, (secret_exit_window 0).2.2⟩

/-! ## Buttons and hit-testing (`Button`, storybook_ui.py lines 202-220;
button drawing in `display_current_page`, lines 560-565; hit-testing in
`handle_events`, lines 774-777) -/

/-- A touch button: position, size (taken from its image), and the `visible`
flag, initialised `False` in `Button.__init__`. -/
structure Button where
  x : Nat
  y : Nat
  width : Nat
  height : Nat
  visible : Bool
deriving Repr, DecidableEq

/-- `Button.is_in_bounds(pos)` (lines 213-216). -/
def Button.is_in_bounds (b : Button) (px py : Nat) : Bool :=
  decide (b.x ≤ px) && decide (px ≤ b.x + b.width) &&
  decide (b.y ≤ py) && decide (py ≤ b.y + b.height)

/-- `Button.show(screen)` (lines 218-220): blit the image and set
`visible = True`.  No statement in the program ever assigns `visible = False`
after construction. -/
def Button.show (b : Button) : Button := { b with visible := true }

/-- The three navigation buttons of the `Storybook` object
(`self.buttons`). -/
structure ButtonsState where
  back : Button
  next : Button
  new : Button
deriving Repr, DecidableEq

/-- The button-drawing tail of `display_current_page` (lines 560-565): the
back button is drawn only when `current_page > 0 or current_story > 0`; the
next and new buttons are always drawn. -/
def draw_page_buttons (current_page current_story : Int) (bs : ButtonsState) :
    ButtonsState :=
  let bs1 := if current_page > 0 ∨ current_story > 0
    then { bs with back := bs.back.show } else bs
  { bs1 with next := bs1.next.show, new := bs1.new.show }

/-- The screens the program draws.  Only `display_current_page` draws
buttons; the welcome, message and loading screens blit full-screen images and
never touch any button's `visible` flag. -/
inductive ScreenOp
  | page (current_page current_story : Int)
  | welcome
  | message
  | loading
deriving Repr, DecidableEq

/-- Effect of one screen draw on the buttons. -/
def apply_op : ScreenOp → ButtonsState → ButtonsState
  | .page cp cs, bs => draw_page_buttons cp cs bs
  | .welcome, bs => bs
  | .message, bs => bs
  | .loading, bs => bs

/-- Effect of a sequence of screen draws. -/
def apply_ops (ops : List ScreenOp) (bs : ButtonsState) : ButtonsState :=
  ops.foldl (fun b o => apply_op o b) bs

/-- The hit test of `handle_events` (line 776): a button receives a tap iff
it is visible and the tap position lies inside its bounds. -/
def clickable (b : Button) (px py : Nat) : Bool :=
  b.visible && b.is_in_bounds px py

theorem apply_op_back_mono (o : ScreenOp) (bs : ButtonsState)
    (hb : bs.back.visible = true) : (apply_op o bs).back.visible = true := by
  cases o with
  | page cp cs =>
    simp only [apply_op, draw_page_buttons]
    split <;> simp [Button.show, hb]
  | welcome => simpa [apply_op] using hb
  | message => simpa [apply_op] using hb
  | loading => simpa [apply_op] using hb

theorem apply_ops_back_mono : ∀ (ops : List ScreenOp) (bs : ButtonsState),
    bs.back.visible = true → (apply_ops ops bs).back.visible = true := by
  intro ops
  induction ops with
  | nil => intro bs hb; simpa [apply_ops] using hb
  | cons o rest ih =>
    intro bs hb
    exact ih (apply_op o bs) (apply_op_back_mono o bs hb)

/-- C10: the back button's visibility is latched.  (1) Visibility is monotone
along every sequence of screen draws — no operation resets it.  (2) After
displaying page 1 (which draws the back button) and then page 0 of story 0
(whose draw omits the back button), the back button is still visible.
(3) A visible button whose bounds contain the tap position passes the
`handle_events` hit test, so a once-drawn button stays hit-testable. -/
theorem button_visible_latched (bs : ButtonsState) (px py : Nat) :
    (∀ ops : List ScreenOp, bs.back.visible = true →
      (apply_ops ops bs).back.visible = true) ∧
    (apply_ops [.page 1 0, .page 0 0] bs).back.visible = true ∧
    (∀ b : Button, b.visible = true → b.is_in_bounds px py = true →
      clickable b px py = true) := by
  refine ⟨fun ops hb => apply_ops_back_mono ops bs hb, ?_, ?_⟩
  · simp [apply_ops, apply_op, draw_page_buttons, Button.show]
  · intro b h1 h2
    simp [clickable, h1, h2]

theorem button_visible_latched_witness :
    (apply_ops [.page 1 0, .page 0 0]
      (⟨⟨10, 900, 80, 60, false⟩, ⟨250, 900, 80, 60, false⟩,
        ⟨490, 900, 80, 60, false⟩⟩ : ButtonsState)).back.visible = true :=
  (button_visible_latched
    ⟨⟨10, 900, 80, 60, false⟩, ⟨250, 900, 80, 60, false⟩,
      ⟨490, 900, 80, 60, false⟩⟩ 20 920).2.1

end Storybook
